import Mathlib

/-!
Verification of the gNAT histogram-accumulation and fitting engine.

Source files embedded: `src/histoer/histogrammer.rs` (registry, fill
scheduling, thread-handle bookkeeping) and `src/fitter/fit_handler.rs`
(Fitter orchestration, Fits collection).  The leaf containers
(`Histogram`, `Histogram2D`) and the leaf fitters (`BackgroundFitter`,
`GaussianFitter`, `LinearFitter`) are not part of the excerpt; they are
modelled from the spec where a claim needs them, and each such definition
carries a doc comment starting with `Modelled from the spec:`.

`f64` values are modelled as `ℚ`: every claim under verification uses only
comparisons and affine arithmetic on data values, never float rounding.
-/

namespace GNat

/-! ## 1D histogram (data model) -/

/-- Modelled from the spec: the bin-index map of §3, `floor((v - min) /
(max - min) * bin_count)`; the concrete `Histogram` source file
(`histo1d/histogram1d.rs`) is not part of the excerpt. -/
def binIndex (rmin rmax : ℚ) (bins : ℕ) (v : ℚ) : ℕ :=
  ⌊(v - rmin) / (rmax - rmin) * bins⌋₊

/-- Modelled from the spec: the `[min, max)` bin-edge policy of §3/§4.1 —
exactly the guard under which `fill` counts a value. -/
def inRangeB (rmin rmax v : ℚ) : Bool :=
  decide (rmin ≤ v) && decide (v < rmax)

/-- Increment slot `b` of a count buffer (no-op when `b` is out of bounds,
which cannot happen for an in-range value of a well-formed histogram). -/
def bump (c : List ℕ) (b : ℕ) : List ℕ :=
  c.set b (c.getD b 0 + 1)

/-- Modelled from the spec: the `Histogram1D` record of §3.  `progress`
models the transient `plot_settings.progress` field the scheduler writes. -/
structure Histogram where
  name : String
  bin_count : ℕ
  range : ℚ × ℚ
  counts : List ℕ
  progress : Option ℚ
deriving Repr, DecidableEq

/-- Modelled from the spec: `fill(value, row_index, total_rows)` of §4.1 —
increments the owning bin if the value is in `[min, max)` (no-op on counts
otherwise) and updates `fill_progress = row_index / total_rows`. -/
def Histogram.fill (h : Histogram) (v : ℚ) (i total : ℕ) : Histogram :=
  let h1 :=
    if inRangeB h.range.1 h.range.2 v then
      { h with counts := bump h.counts (binIndex h.range.1 h.range.2 h.bin_count v) }
    else h
  { h1 with progress := some ((i : ℚ) / (total : ℚ)) }

/-- Modelled from the spec: a histogram is created with zeroed counts
(§3 lifecycle). -/
def Histogram.new (name : String) (bins : ℕ) (range : ℚ × ℚ) : Histogram :=
  ⟨name, bins, range, List.replicate bins 0, none⟩

/-- Modelled from the spec: `reset()` zeroes counts and clears progress
without changing geometry (§4.1). -/
def Histogram.reset (h : Histogram) : Histogram :=
  { h with counts := List.replicate h.bin_count 0, progress := none }

/-! ## 2D histogram (data model) -/

/-- Increment cell `(bi, bj)` of a row-major 2D count grid. -/
def bump2 (c : List (List ℕ)) (bi bj : ℕ) : List (List ℕ) :=
  c.set bi (bump (c.getD bi []) bj)

/-- Modelled from the spec: the `Histogram2D` record of §3.  `cuts_x` /
`cuts_y` model the `plot_settings.cuts.x_column` / `y_column` fields that
`fill_hist2d` writes at dispatch time. -/
structure Histogram2D where
  name : String
  bin_count : ℕ × ℕ
  rangeX : ℚ × ℚ
  rangeY : ℚ × ℚ
  counts : List (List ℕ)
  progress : Option ℚ
  cuts_x : String
  cuts_y : String
deriving Repr, DecidableEq

/-- Modelled from the spec: 2D `fill` — the same per-axis binning rule; a
pair is counted only if both components are in range (§3), and progress is
updated as in the 1D case. -/
def Histogram2D.fill (h : Histogram2D) (x y : ℚ) (i total : ℕ) : Histogram2D :=
  let h1 :=
    if inRangeB h.rangeX.1 h.rangeX.2 x && inRangeB h.rangeY.1 h.rangeY.2 y then
      { h with counts :=
          (bump2 h.counts (binIndex h.rangeX.1 h.rangeX.2 h.bin_count.1 x)
            (binIndex h.rangeY.1 h.rangeY.2 h.bin_count.2 y)) }
    else h
  { h1 with progress := some ((i : ℚ) / (total : ℚ)) }

/-- Modelled from the spec: 2D creation with zeroed counts. -/
def Histogram2D.new (name : String) (bins : ℕ × ℕ) (range : (ℚ × ℚ) × (ℚ × ℚ)) :
    Histogram2D :=
  ⟨name, bins, range.1, range.2,
    List.replicate bins.1 (List.replicate bins.2 0), none, "", ""⟩

/-- Modelled from the spec: 2D `reset()` — zero counts, clear progress,
geometry unchanged. -/
def Histogram2D.reset (h : Histogram2D) : Histogram2D :=
  { h with counts := List.replicate h.bin_count.1 (List.replicate h.bin_count.2 0),
           progress := none }

/-! ## Row-selection predicates (from `Histogrammer::fill_hist1d` /
`fill_hist2d`, `histogrammer.rs` lines 211–213 and 351–355): the polars
filter expression `col > min AND col < max` (per axis in the 2D case). -/

/-- The 1D row filter built by `fill_hist1d`: `column > min AND column < max`. -/
def filterPred1dB (rmin rmax v : ℚ) : Bool :=
  decide (rmin < v) && decide (v < rmax)

/-- The 2D row filter built by `fill_hist2d`: the conjunction of the strict
per-axis bounds for both columns. -/
def filterPred2dB (rx ry : ℚ × ℚ) (x y : ℚ) : Bool :=
  filterPred1dB rx.1 rx.2 x && filterPred1dB ry.1 ry.2 y

/-! ## Fill tasks (from the thread bodies of `Histogrammer::fill_hist1d`
lines 226–261 and `fill_hist2d` lines 373–410): the materialized column is
iterated once with `enumerate`; a null entry is skipped (`if let Some(v)`),
and every `fill` call receives the full materialized length
(`total_steps = values.len()`) as its progress denominator. -/

/-- One step of the 1D fill loop: `if let Some(v) = value { hist.fill(v, i, total) }`. -/
def fillStep1d (total : ℕ) (h : Histogram) (p : ℕ × Option ℚ) : Histogram :=
  match p.2 with
  | some v => h.fill v p.1 total
  | none => h

/-- The 1D fill loop over the materialized (possibly null-holding) column:
`for (i, value) in values.iter().enumerate()`. -/
def runFill1dLoop (h : Histogram) (vs : List (Option ℚ)) : Histogram :=
  vs.enum.foldl (fillStep1d vs.length) h

/-- One step of the 2D fill loop: both components must be non-null. -/
def fillStep2d (total : ℕ) (h : Histogram2D) (p : ℕ × (Option ℚ × Option ℚ)) :
    Histogram2D :=
  match p.2 with
  | (some x, some y) => h.fill x y p.1 total
  | _ => h

/-- The 2D fill loop: `x_values.iter().zip(y_values.iter()).enumerate()`,
with `total_steps = x_values.len()`. -/
def runFill2dLoop (h : Histogram2D) (xs ys : List (Option ℚ)) : Histogram2D :=
  (xs.zip ys).enum.foldl (fillStep2d xs.length) h

/-! ## Concurrent fills of one histogram (C9).

The scheduler (§4.3/§5) lets two fill requests for the same histogram run
concurrently; each contribution is applied under the histogram's mutex,
acquired once per element (`hist.lock().unwrap(); hist.fill(...)`,
`histogrammer.rs` lines 247–252 / 395–401).  The concurrent execution is
therefore some interleaving of the two tasks' per-element atomic `fill`
operations; we show the resulting bin counts are those of the serial
composition, for every interleaving. -/

/-- One contribution of a fill task: the arguments of a single locked
`fill` call. -/
structure FillOp where
  v : ℚ
  idx : ℕ
  tot : ℕ
deriving Repr, DecidableEq

/-- Apply one atomic contribution to a histogram. -/
def applyOp (h : Histogram) (op : FillOp) : Histogram :=
  h.fill op.v op.idx op.tot

/-- The counts-level effect of one contribution, for a fixed geometry. -/
def countsStep (bins : ℕ) (r : ℚ × ℚ) (c : List ℕ) (op : FillOp) : List ℕ :=
  if inRangeB r.1 r.2 op.v then bump c (binIndex r.1 r.2 bins op.v) else c

/-- `s` is an interleaving of `a` and `b`: the schedule of two concurrent
tasks whose per-element critical sections never overlap. -/
inductive Interleaves : List FillOp → List FillOp → List FillOp → Prop
  | nil : Interleaves [] [] []
  | left {a as bs cs} : Interleaves as bs cs → Interleaves (a :: as) bs (a :: cs)
  | right {b as bs cs} : Interleaves as bs cs → Interleaves as (b :: bs) (b :: cs)

/-! ## Fitters (from `src/fitter/fit_handler.rs`; the leaf fitters
`BackgroundFitter`, `GaussianFitter`, `LinearFitter` and `EguiLine` are not
part of the excerpt and are modelled from the spec). -/

/-- Modelled from the spec: a render-ready curve (name plus point
sequence); colour and style attributes of the real `EguiLine` are
irrelevant to every claim and omitted. -/
structure EguiLine where
  line_name : String
  points : List (ℚ × ℚ)
deriving Repr, DecidableEq

/-- Modelled from the spec: closed-form ordinary least squares on paired
samples (§4.6): fails — no result — on degenerate input (fewer than 2
points or zero x-variance). -/
def olsParams (xs ys : List ℚ) : Option (ℚ × ℚ) :=
  let n : ℚ := (xs.length : ℚ)
  let sx := xs.sum
  let sy := ys.sum
  let sxx := (xs.map (fun x => x * x)).sum
  let sxy := ((xs.zip ys).map (fun p => p.1 * p.2)).sum
  let den := n * sxx - sx * sx
  if xs.length < 2 ∨ den = 0 then none
  else
    let slope := (n * sxy - sx * sy) / den
    some (slope, (sy - slope * sx) / n)

/-- Modelled from the spec: `BackgroundFitter` (§3/§4.4) — own x/y sample
data and an optional fitted result (slope, intercept). -/
structure BackgroundFitter where
  x_data : List ℚ
  y_data : List ℚ
  result : Option (ℚ × ℚ)
deriving Repr, DecidableEq

/-- Modelled from the spec: `BackgroundFitter::fit` — an OLS fit over the
stored sample points; a no-op when a result already exists (§4.4). -/
def BackgroundFitter.fit (b : BackgroundFitter) : BackgroundFitter :=
  match b.result with
  | some _ => b
  | none => { b with result := olsParams b.x_data b.y_data }

/-- Modelled from the spec: `get_background(x_values)` returns the
evaluated background aligned to `x_values`, or `none` until a fit has been
performed (§3/§4.4). -/
def BackgroundFitter.get_background (b : BackgroundFitter) (xs : List ℚ) :
    Option (List ℚ) :=
  b.result.map (fun p => xs.map (fun x => p.1 * x + p.2))

/-- Modelled from the spec: a rational stand-in for the Gaussian component
shape `A · exp(-(x-μ)²/(2σ²))`; the transcendental `exp` is unavailable
over `ℚ` and no claim depends on the pointwise values of a curve, only on
how many curves exist and over which x-domain they are evaluated. -/
def componentShape (A mu sigma x : ℚ) : ℚ :=
  A / (1 + (x - mu) * (x - mu) / (2 * sigma * sigma))

/-- Modelled from the spec: the y sample nearest a guessed centre, used to
initialise a component's amplitude (§4.5). -/
def nearestY (xs ys : List ℚ) (mu : ℚ) : ℚ :=
  ((xs.zip ys).foldl
    (fun best p => if |p.1 - mu| < |best.1 - mu| then p else best)
    (0, 0)).2

/-- Modelled from the spec: the sigma heuristic — a fraction of the
x-range (§4.5). -/
def sigmaGuess (xs : List ℚ) : ℚ :=
  (xs.foldl max 0 - xs.foldl min 0) / 10

/-- Modelled from the spec: `GaussianFitter` (§3/§4.5) — background-
subtracted samples, the initial peak-centre guesses preserved as
`peak_markers`, per-peak `(A, μ, σ)` parameters, and the decomposed
per-peak curves `fit_lines`, one per initial centre. -/
structure GaussianFitter where
  x_data : List ℚ
  y_data : List ℚ
  peak_markers : List ℚ
  params : List (ℚ × ℚ × ℚ)
  fit_lines : Option (List (List (ℚ × ℚ)))
deriving Repr, DecidableEq

/-- Modelled from the spec: `GaussianFitter::new` holds the data and the
guesses; nothing is fit yet. -/
def GaussianFitter.new (xs ys markers : List ℚ) : GaussianFitter :=
  ⟨xs, ys, markers, [], none⟩

/-- Modelled from the spec: `multi_gauss_fit` (§4.5) — each component is
initialised from the guess (amplitude from the nearest observed y, mean
from the guess, sigma from the x-range heuristic) and refined by a
bounded iterative solver; the refinement changes parameter values only,
never the structural outputs, so it is modelled by the initialisation.
Output: one decomposed curve per initial peak centre, evaluated over the
original x-domain, with `peak_markers` preserved (§3 invariant). -/
def GaussianFitter.multi_gauss_fit (g : GaussianFitter) : GaussianFitter :=
  let ps := g.peak_markers.map
    (fun mu => (nearestY g.x_data g.y_data mu, mu, sigmaGuess g.x_data))
  { g with
      params := ps,
      fit_lines :=
        some (ps.map (fun p => g.x_data.map
          (fun x => (x, componentShape p.1 p.2.1 p.2.2 x)))) }

/-- Modelled from the spec: `LinearFitter` (§3/§4.6). -/
structure LinearFitter where
  x_data : List ℚ
  y_data : List ℚ
  fit_params : Option (ℚ × ℚ)
deriving Repr, DecidableEq

/-- Modelled from the spec: `LinearFitter::new`. -/
def LinearFitter.new (xs ys : List ℚ) : LinearFitter :=
  ⟨xs, ys, none⟩

/-- Modelled from the spec: `perform_linear_fit` — closed-form OLS;
degenerate input yields no stored result (§4.6/§7e). -/
def LinearFitter.perform_linear_fit (f : LinearFitter) : LinearFitter :=
  { f with fit_params := olsParams f.x_data f.y_data }

/-- `FitModel` from `fit_handler.rs` lines 12–16. -/
inductive FitModel where
  | Gaussian : List ℚ → FitModel
  | Linear : FitModel
deriving Repr, DecidableEq

/-- `FitResult` from `fit_handler.rs` lines 18–22. -/
inductive FitResult where
  | Gaussian : GaussianFitter → FitResult
  | Linear : LinearFitter → FitResult
deriving Repr, DecidableEq

/-- `Fitter` from `fit_handler.rs` lines 23–33. -/
structure Fitter where
  x_data : List ℚ
  y_data : List ℚ
  y_err : Option (List ℚ)
  background : Option BackgroundFitter
  model : FitModel
  result : Option FitResult
  deconvoluted_lines : List EguiLine
  convoluted_line : EguiLine
deriving Repr, DecidableEq

/-- `Fitter::subtract_background` (`fit_handler.rs` lines 50–64): y minus
the evaluated background when available, raw y otherwise. -/
def Fitter.subtract_background (f : Fitter) : List ℚ :=
  match f.background with
  | some bg =>
    match bg.get_background f.x_data with
    | some bgr => (f.y_data.zip bgr).map (fun p => p.1 - p.2)
    | none => f.y_data
  | none => f.y_data

/-- `Fitter::get_peak_markers` (`fit_handler.rs` lines 66–74). -/
def Fitter.get_peak_markers (f : Fitter) : List ℚ :=
  match f.result with
  | some (FitResult.Gaussian fit) => fit.peak_markers
  | _ =>
    match f.model with
    | FitModel.Gaussian pm => pm
    | _ => []

/-- `Fitter::fit` (`fit_handler.rs` lines 76–121): fit the background if
attached and unfit, subtract it, dispatch on the model; the Gaussian
branch pushes one `EguiLine` per entry of the fit's `fit_lines` onto
`deconvoluted_lines` and stores the result. -/
def Fitter.fit (f : Fitter) : Fitter :=
  let f1 :=
    match f.background with
    | some bg =>
      match bg.result with
      | none => { f with background := some bg.fit }
      | some _ => f
    | none => f
  let yCorr := f1.subtract_background
  match f1.model with
  | FitModel.Gaussian pm =>
    let g := (GaussianFitter.new f1.x_data yCorr pm).multi_gauss_fit
    let newLines :=
      match g.fit_lines with
      | some ls => ls.enum.map
          (fun p => EguiLine.mk ("Peak " ++ toString p.1) p.2)
      | none => []
    { f1 with
        deconvoluted_lines := f1.deconvoluted_lines ++ newLines,
        result := some (FitResult.Gaussian g) }
  | FitModel.Linear =>
    { f1 with
        result :=
          some (FitResult.Linear
            ((LinearFitter.new f1.x_data yCorr).perform_linear_fit)) }

/-! Derived descriptions used to state C2 and C5: the updated background,
the corrected y-data, and the new fit's products, all functions of the
fitter's inputs only (never of its previous `result` or
`deconvoluted_lines`). -/

/-- The background after `fit()`: fitted exactly when attached and not yet
fit. -/
def updatedBackground : Option BackgroundFitter → Option BackgroundFitter
  | some bg =>
    match bg.result with
    | none => some bg.fit
    | some _ => some bg
  | none => none

/-- The corrected y-data: element-wise `y - background(x)` when an
evaluated background is available, raw y otherwise. -/
def correctedY (xs ys : List ℚ) : Option BackgroundFitter → List ℚ
  | some bg =>
    match bg.get_background xs with
    | some bgr => List.zipWith (fun a b => a - b) ys bgr
    | none => ys
  | none => ys

/-- The products of one `fit()` dispatch — the stored result and the
freshly materialized per-peak curves — computed from the inputs alone. -/
def fitProducts (xs ys : List ℚ) (bg : Option BackgroundFitter) :
    FitModel → FitResult × List EguiLine
  | FitModel.Gaussian pm =>
    let g := (GaussianFitter.new xs (correctedY xs ys bg) pm).multi_gauss_fit
    (FitResult.Gaussian g,
      match g.fit_lines with
      | some ls => ls.enum.map
          (fun p => EguiLine.mk ("Peak " ++ toString p.1) p.2)
      | none => [])
  | FitModel.Linear =>
    (FitResult.Linear
      ((LinearFitter.new xs (correctedY xs ys bg)).perform_linear_fit), [])

/-- A concrete fitter: three samples, a single-peak Gaussian model, no
background, nothing fit yet. -/
def exampleFitter : Fitter :=
  ⟨[0, 1, 2], [1, 2, 1], none, none, FitModel.Gaussian [1], none, [],
    ⟨"Convoluted", []⟩⟩

/-- A fitter whose attached background has not been fit yet. -/
def unfitBgFitter : Fitter :=
  ⟨[0, 1], [2, 3], none, some ⟨[0, 1], [0, 1], none⟩, FitModel.Linear, none,
    [], ⟨"Convoluted", []⟩⟩

/-- A fitter whose attached background already has a result. -/
def fitBgFitter : Fitter :=
  ⟨[1], [5], none, some ⟨[], [], some (0, 0)⟩, FitModel.Linear, none, [],
    ⟨"Convoluted", []⟩⟩

/-- A Linear-model fitter with no result and no background. -/
def linearFitter0 : Fitter :=
  ⟨[], [], none, none, FitModel.Linear, none, [], ⟨"Convoluted", []⟩⟩

/-! ## Fits collection (from `fit_handler.rs` lines 172–229). -/

/-- `Fits` from `fit_handler.rs` lines 172–177: the in-progress fit, the
in-progress background fit, and the ordered stored fits. -/
structure Fits where
  temp_fit : Option Fitter
  temp_background_fit : Option BackgroundFitter
  stored_fits : List Fitter
deriving Repr, DecidableEq

/-- The merge step of `Fits::load_from_file` (`fit_handler.rs` lines
220–222), abstracted over the file dialog and deserialization: `loaded` is
the successfully deserialized snapshot; stored fits are appended, both
in-progress slots overwritten. -/
def Fits.loadMerge (self loaded : Fits) : Fits :=
  { self with
      stored_fits := self.stored_fits ++ loaded.stored_fits,
      temp_fit := loaded.temp_fit,
      temp_background_fit := loaded.temp_background_fit }

/-- A Gaussian-model fitter that has not been fit: preview state. -/
def previewFitter : Fitter :=
  ⟨[], [], none, none, FitModel.Gaussian [5], none, [], ⟨"Convoluted", []⟩⟩

/-- A fitter holding a finished Gaussian result with one peak marker. -/
def doneFitter : Fitter :=
  ⟨[], [], none, none, FitModel.Gaussian [5],
    some (FitResult.Gaussian ⟨[], [], [7], [], none⟩), [],
    ⟨"Convoluted", []⟩⟩

/-! ## Histogram registry (from `Histogrammer`, `histogrammer.rs`).

The `egui_tiles` tree is embedded as: the 1D and 2D histogram panes (each
an id plus its shared histogram), the grid containers (id plus the tab
label the behavior records for them), the `grid_histogram_map`, the worker
handle list (as dispatched fill jobs, C4's concern), and the tile-id
allocator. -/

/-- A fill job dispatched to a worker thread at `fill_hist1d` /
`fill_hist2d` time: the target histogram and the source columns. -/
structure FillJob where
  hist_name : String
  columns : List String
deriving Repr, DecidableEq

/-- A tile holding a 1D histogram (`Pane::Histogram`). -/
structure Pane1D where
  pid : ℕ
  hist : Histogram
deriving Repr, DecidableEq

/-- A tile holding a 2D histogram (`Pane::Histogram2D`). -/
structure Pane2D where
  pid : ℕ
  hist : Histogram2D
deriving Repr, DecidableEq

/-- A grid container tile together with its tab label. -/
structure GridTile where
  gid : ℕ
  tab : String
deriving Repr, DecidableEq

/-- The registry state of `Histogrammer` (`histogrammer.rs` lines 20–27). -/
structure Histogrammer where
  panes1d : List Pane1D
  panes2d : List Pane2D
  grids : List GridTile
  grid_histogram_map : List (ℕ × List ℕ)
  handles : List FillJob
  next_id : ℕ
deriving Repr, DecidableEq

/-- `Histogrammer::create_grid` (lines 87–126), restricted to the grid
bookkeeping the claims observe: a fresh grid tile labelled `tab`. -/
def Histogrammer.create_grid (H : Histogrammer) (tab : String) :
    ℕ × Histogrammer :=
  (H.next_id,
   { H with grids := H.grids ++ [⟨H.next_id, tab⟩], next_id := H.next_id + 1 })

/-- `Histogrammer::get_or_create_other_grid` (lines 142–156): return the
grid labelled "Other" when one exists, otherwise create it. -/
def Histogrammer.get_or_create_other_grid (H : Histogrammer) :
    ℕ × Histogrammer :=
  match H.grids.find? (fun g => g.tab = "Other") with
  | some g => (g.gid, H)
  | none => H.create_grid "Other"

/-- `grid_histogram_map.entry(grid_id).or_default().push(pane_id)`. -/
def mapAdd : List (ℕ × List ℕ) → ℕ → ℕ → List (ℕ × List ℕ)
  | [], g, p => [(g, [p])]
  | e :: rest, g, p =>
    if e.1 = g then (e.1, e.2 ++ [p]) :: rest
    else e :: mapAdd rest g p

/-- The in-place reset of the first pane whose histogram carries `name`
(the search-and-break loop of `add_hist1d`, lines 161–170). -/
def resetFirst1d (l : List Pane1D) (name : String) : List Pane1D :=
  match l with
  | [] => []
  | p :: rest =>
    if p.hist.name = name then { p with hist := p.hist.reset } :: rest
    else p :: resetFirst1d rest name

/-- The 2D analogue for `add_hist2d` (lines 295–304). -/
def resetFirst2d (l : List Pane2D) (name : String) : List Pane2D :=
  match l with
  | [] => []
  | p :: rest =>
    if p.hist.name = name then { p with hist := p.hist.reset } :: rest
    else p :: resetFirst2d rest name

/-- The pane insertion of `add_hist1d`'s create path
(`insert_pane`, line 176): a fresh zeroed histogram pane appended. -/
def insertPane1d (H : Histogrammer) (name : String) (bins : ℕ)
    (range : ℚ × ℚ) : Histogrammer :=
  { H with
      next_id := H.next_id + 1,
      panes1d := H.panes1d ++ [Pane1D.mk H.next_id (Histogram.new name bins range)] }

/-- The 2D pane insertion of `add_hist2d`'s create path (line 310). -/
def insertPane2d (H : Histogrammer) (name : String) (bins : ℕ × ℕ)
    (range : (ℚ × ℚ) × (ℚ × ℚ)) : Histogrammer :=
  { H with
      next_id := H.next_id + 1,
      panes2d := H.panes2d ++ [Pane2D.mk H.next_id (Histogram2D.new name bins range)] }

/-- Grid selection (lines 179–183): the supplied grid id, or the lazily
obtained "Other" grid when none is given. -/
def resolveGrid (H1 : Histogrammer) : Option ℕ → ℕ × Histogrammer
  | some g => (g, H1)
  | none => H1.get_or_create_other_grid

/-- Placement (lines 185–195): when the resolved grid id names a grid
container, record the pane under it in `grid_histogram_map`; otherwise log
an error and leave the pane unplaced. -/
def placePane (gh : ℕ × Histogrammer) (pid : ℕ) : Histogrammer :=
  if (gh.2.grids.find? (fun t => t.gid = gh.1)).isSome then
    { gh.2 with grid_histogram_map := mapAdd gh.2.grid_histogram_map gh.1 pid }
  else gh.2

/-- `Histogrammer::add_hist1d` (lines 158–197): reset in place when a
same-name 1D histogram exists; otherwise insert a fresh zeroed pane, place
it in the given grid — or the lazily obtained "Other" grid — and record it
in `grid_histogram_map` when the grid id is valid. -/
def Histogrammer.add_hist1d (H : Histogrammer) (name : String) (bins : ℕ)
    (range : ℚ × ℚ) (grid : Option ℕ) : Histogrammer :=
  if (H.panes1d.find? (fun p => p.hist.name = name)).isSome then
    { H with panes1d := resetFirst1d H.panes1d name }
  else
    placePane (resolveGrid (insertPane1d H name bins range) grid) H.next_id

/-- `Histogrammer::add_hist2d` (lines 286–331). -/
def Histogrammer.add_hist2d (H : Histogrammer) (name : String)
    (bins : ℕ × ℕ) (range : (ℚ × ℚ) × (ℚ × ℚ)) (grid : Option ℕ) :
    Histogrammer :=
  if (H.panes2d.find? (fun p => p.hist.name = name)).isSome then
    { H with panes2d := resetFirst2d H.panes2d name }
  else
    placePane (resolveGrid (insertPane2d H name bins range) grid) H.next_id

/-- The cut-column bookkeeping `fill_hist2d` performs on the found pane at
dispatch time (lines 362–363). -/
def setCutsFirst2d (l : List Pane2D) (name cx cy : String) : List Pane2D :=
  match l with
  | [] => []
  | p :: rest =>
    if p.hist.name = name then
      { p with hist := { p.hist with cuts_x := cx, cuts_y := cy } } :: rest
    else p :: setCutsFirst2d rest name cx cy

/-- `Histogrammer::fill_hist1d` (lines 199–271): look up the pane by name;
on a miss report failure (log, return `false`) with nothing mutated and no
task spawned; on a hit dispatch the fill as a job and return `true`
immediately — the histogram itself is untouched at dispatch time. -/
def Histogrammer.fill_hist1d (H : Histogrammer) (name col : String) :
    Bool × Histogrammer :=
  match H.panes1d.find? (fun p => p.hist.name = name) with
  | some _ => (true, { H with handles := H.handles ++ [⟨name, [col]⟩] })
  | none => (false, H)

/-- `Histogrammer::fill_hist2d` (lines 333–420): as `fill_hist1d`, except
the found pane's cut columns are recorded before the job is dispatched. -/
def Histogrammer.fill_hist2d (H : Histogrammer) (name cx cy : String) :
    Bool × Histogrammer :=
  match H.panes2d.find? (fun p => p.hist.name = name) with
  | some _ =>
    (true, { H with
        panes2d := setCutsFirst2d H.panes2d name cx cy,
        handles := H.handles ++ [⟨name, [cx, cy]⟩] })
  | none => (false, H)

/-- A concrete registry: one 1D histogram "e1", one 2D histogram "e2", an
"Other" grid, next tile id 3. -/
def sampleRegistry : Histogrammer :=
  ⟨[Pane1D.mk 0 (Histogram.new "e1" 4 (0, 4))],
   [Pane2D.mk 1 (Histogram2D.new "e2" (2, 2) ((0, 1), (0, 1)))],
   [GridTile.mk 2 "Other"], [], [], 3⟩

/-! ## Thread-handle bookkeeping
(`Histogrammer::check_and_join_finished_threads`, `histogrammer.rs` lines
48–71): collect the indices of finished handles in ascending scan order,
then `swap_remove` and join them in descending index order.  Joining a
handle surfaces its outcome — success or the panic payload — exactly once
in the log; the function itself is total, so a panicking task never
crashes the scheduler. -/

/-- A worker thread handle as the poll loop sees it: whether the task has
finished, and whether it panicked (its `join` would yield `Err`). -/
structure ThreadHandle where
  is_finished : Bool
  panicked : Bool
deriving Repr, DecidableEq, Inhabited

/-- `Vec::swap_remove(i)`: replace slot `i` with the last element and
shrink by one. -/
def swapRemove {α : Type} (l : List α) (i : ℕ) : List α :=
  match l.getLast? with
  | none => []
  | some a => (l.set i a).dropLast

/-- One step of the removal loop: `swap_remove` the handle at index `i`
and append it to the joined (outcome-surfaced) sequence. -/
def joinStep {α : Type} [Inhabited α] (st : List α × List α) (i : ℕ) :
    List α × List α :=
  (swapRemove st.1 i, st.2 ++ [st.1.getD i default])

/-- The ascending finished-index scan (`for (i, handle) in ... enumerate()`
pushing `i` when `handle.is_finished()`). -/
def finishedIdx (hs : List ThreadHandle) : List ℕ :=
  (List.range hs.length).filter (fun i => (hs.getD i default).is_finished)

/-- `check_and_join_finished_threads`: early-return on an empty handle
list, otherwise remove-and-join the finished indices in reverse order.
Returns the remaining handle list and the joined handles in join order. -/
def checkAndJoinFinished (hs : List ThreadHandle) :
    List ThreadHandle × List ThreadHandle :=
  if hs.isEmpty then (hs, [])
  else (finishedIdx hs).reverse.foldl joinStep (hs, [])

/-! ## Theorems -/

theorem inRangeB_eq_true {rmin rmax v : ℚ} :
    inRangeB rmin rmax v = true ↔ rmin ≤ v ∧ v < rmax := by
  simp [inRangeB]

theorem filterPred1dB_eq_true {rmin rmax v : ℚ} :
    filterPred1dB rmin rmax v = true ↔ rmin < v ∧ v < rmax := by
  simp [filterPred1dB]

/-- C1, counterexample.  The claim asserts that every value `v` with
`min ≤ v < max` is admitted by the filter `column > min AND column < max`.
At `(min, max) = (0, 10)` and `v = 0` the bin-edge policy counts `v`
(it lies in `[0, 10)`, bin 0) but the strict filter rejects it. -/
theorem fill_filter_consistency_counterexample :
    inRangeB 0 10 0 = true ∧ filterPred1dB 0 10 0 = false := by
  constructor <;> rfl

/-- C1 (amended): the filter `> min AND < max` is consistent with the
`[min, max)` bin-edge policy on `(min, max)`, but not at `v = min`: every
row the filter admits is counted by the bin math, and a value in
`[min, max)` is admitted by the filter iff it differs from `min`; the value
`v = min` is counted by the bin-edge policy yet excluded from selection.
The same holds per axis for the 2D filter. -/
theorem fill_filter_consistency (rmin rmax v : ℚ) (rx ry : ℚ × ℚ) (x y : ℚ) :
    (filterPred1dB rmin rmax v = true → inRangeB rmin rmax v = true)
    ∧ (inRangeB rmin rmax v = true →
        (filterPred1dB rmin rmax v = true ↔ v ≠ rmin))
    ∧ (filterPred2dB rx ry x y = true →
        inRangeB rx.1 rx.2 x = true ∧ inRangeB ry.1 ry.2 y = true)
    ∧ (inRangeB rx.1 rx.2 x = true → inRangeB ry.1 ry.2 y = true →
        (filterPred2dB rx ry x y = true ↔ (x ≠ rx.1 ∧ y ≠ ry.1))) := by
  simp only [filterPred2dB, Bool.and_eq_true, filterPred1dB_eq_true, inRangeB_eq_true]
  refine ⟨?_, ?_, ?_, ?_⟩
  · rintro ⟨h1, h2⟩; exact ⟨le_of_lt h1, h2⟩
  · rintro ⟨h1, h2⟩
    constructor
    · rintro ⟨hlt, -⟩; exact (ne_of_gt hlt)
    · intro hne; exact ⟨lt_of_le_of_ne h1 (Ne.symm hne), h2⟩
  · rintro ⟨⟨hx1, hx2⟩, ⟨hy1, hy2⟩⟩
    exact ⟨⟨le_of_lt hx1, hx2⟩, ⟨le_of_lt hy1, hy2⟩⟩
  · rintro ⟨hx1, hx2⟩ ⟨hy1, hy2⟩
    constructor
    · rintro ⟨⟨ha, -⟩, ⟨hb, -⟩⟩; exact ⟨ne_of_gt ha, ne_of_gt hb⟩
    · rintro ⟨ha, hb⟩
      exact ⟨⟨lt_of_le_of_ne hx1 (Ne.symm ha), hx2⟩,
             ⟨lt_of_le_of_ne hy1 (Ne.symm hb), hy2⟩⟩

theorem foldl_fillStep1d_filterMap (t : ℕ) :
    ∀ (l : List (ℕ × Option ℚ)) (h : Histogram),
      l.foldl (fillStep1d t) h =
        (l.filterMap (fun p => p.2.map (fun v => (p.1, v)))).foldl
          (fun h q => h.fill q.2 q.1 t) h := by
  intro l
  induction l with
  | nil => intro h; rfl
  | cons p rest ih =>
    intro h
    rcases p with ⟨i, v?⟩
    cases v? with
    | none => simpa [fillStep1d] using ih h
    | some v => simpa [fillStep1d] using ih (h.fill v i t)

theorem foldl_fillStep2d_filterMap (t : ℕ) :
    ∀ (l : List (ℕ × (Option ℚ × Option ℚ))) (h : Histogram2D),
      l.foldl (fillStep2d t) h =
        (l.filterMap (fun p =>
            match p.2 with
            | (some x, some y) => some (p.1, x, y)
            | _ => none)).foldl
          (fun h q => h.fill q.2.1 q.2.2 q.1 t) h := by
  intro l
  induction l with
  | nil => intro h; rfl
  | cons p rest ih =>
    intro h
    rcases p with ⟨i, x?, y?⟩
    cases x? with
    | none => cases y? <;> simpa [fillStep2d] using ih h
    | some x =>
      cases y? with
      | none => simpa [fillStep2d] using ih h
      | some y => simpa [fillStep2d] using ih (h.fill x y i t)

/-- C10: a null entry in the materialized column (or a pair with either
component null, in the 2D case) is skipped entirely: the loop step leaves
the histogram — counts and fill progress alike — unchanged, while the fill
loop is equivalent to folding `fill` over only the non-null entries with
their original row indices, every call receiving the full materialized
length (null rows included) as the progress denominator. -/
theorem null_entries_skipped (t : ℕ) (h : Histogram) (h2 : Histogram2D)
    (i : ℕ) (x? y? : Option ℚ) (vs : List (Option ℚ)) (xs ys : List (Option ℚ)) :
    fillStep1d t h (i, none) = h
    ∧ fillStep2d t h2 (i, (none, y?)) = h2
    ∧ fillStep2d t h2 (i, (x?, none)) = h2
    ∧ runFill1dLoop h vs =
        (vs.enum.filterMap (fun p => p.2.map (fun v => (p.1, v)))).foldl
          (fun h q => h.fill q.2 q.1 vs.length) h
    ∧ runFill2dLoop h2 xs ys =
        ((xs.zip ys).enum.filterMap (fun p =>
            match p.2 with
            | (some x, some y) => some (p.1, x, y)
            | _ => none)).foldl
          (fun h q => h.fill q.2.1 q.2.2 q.1 xs.length) h2 := by
  refine ⟨rfl, rfl, ?_, ?_, ?_⟩
  · cases x? <;> rfl
  · exact foldl_fillStep1d_filterMap vs.length vs.enum h
  · exact foldl_fillStep2d_filterMap xs.length (xs.zip ys).enum h2

theorem Interleaves.perm {a b s : List FillOp} (h : Interleaves a b s) :
    s.Perm (a ++ b) := by
  induction h with
  | nil => exact List.Perm.refl _
  | left _ ih => exact ih.cons _
  | right _ ih => exact (ih.cons _).trans List.perm_middle.symm

theorem getD_set_ne {c : List ℕ} {i j : ℕ} (hij : i ≠ j) (a d : ℕ) :
    (c.set i a).getD j d = c.getD j d := by
  induction c generalizing i j with
  | nil => simp
  | cons x xs ih =>
    cases i with
    | zero =>
      cases j with
      | zero => exact absurd rfl hij
      | succ j => simp [List.getD]
    | succ i =>
      cases j with
      | zero => simp [List.getD]
      | succ j =>
        simp only [List.set, List.getD_cons_succ]
        exact ih (fun h => hij (by rw [h]))

theorem bump_comm (c : List ℕ) (b1 b2 : ℕ) :
    bump (bump c b1) b2 = bump (bump c b2) b1 := by
  by_cases h : b1 = b2
  · rw [h]
  · unfold bump
    rw [getD_set_ne h, getD_set_ne (fun hh => h hh.symm),
        List.set_comm _ _ _ (fun hh => h hh)]

theorem countsStep_comm (bins : ℕ) (r : ℚ × ℚ) (c : List ℕ) (x y : FillOp) :
    countsStep bins r (countsStep bins r c x) y =
      countsStep bins r (countsStep bins r c y) x := by
  unfold countsStep
  by_cases hx : inRangeB r.1 r.2 x.v = true <;>
    by_cases hy : inRangeB r.1 r.2 y.v = true <;>
      simp [hx, hy, bump_comm]

theorem applyOp_geometry (h : Histogram) (op : FillOp) :
    (applyOp h op).bin_count = h.bin_count ∧ (applyOp h op).range = h.range ∧
      (applyOp h op).counts = countsStep h.bin_count h.range h.counts op := by
  unfold applyOp Histogram.fill countsStep
  by_cases hc : inRangeB h.range.1 h.range.2 op.v = true <;> simp [hc]

theorem foldl_applyOp_counts :
    ∀ (s : List FillOp) (h : Histogram),
      (s.foldl applyOp h).counts =
        s.foldl (countsStep h.bin_count h.range) h.counts := by
  intro s
  induction s with
  | nil => intro h; rfl
  | cons op rest ih =>
    intro h
    have hg := applyOp_geometry h op
    simp only [List.foldl_cons]
    rw [ih (applyOp h op), hg.1, hg.2.1, hg.2.2]

/-- C9: for any interleaving `s` of the per-element atomic contributions of
two fill requests `a` and `b` targeting the same histogram, the final bin
counts equal those of the serial composition `a ++ b` (no lost updates),
even though the interleaved progress writes differ. -/
theorem concurrent_fill_counts (h : Histogram) (a b s : List FillOp)
    (hs : Interleaves a b s) :
    (s.foldl applyOp h).counts = ((a ++ b).foldl applyOp h).counts := by
  rw [foldl_applyOp_counts, foldl_applyOp_counts]
  exact (hs.perm).foldl_eq'
    (fun x _ y _ z => countsStep_comm h.bin_count h.range z x y) h.counts

/-- C9, witness: a concrete two-task schedule (the second task's sole
contribution slips in before the first task's) yields the same counts as
the serial order. -/
theorem concurrent_fill_counts_witness :
    (([⟨2, 0, 1⟩, ⟨1, 0, 1⟩] : List FillOp).foldl applyOp
        (Histogram.new "h" 4 (0, 4))).counts =
      ((([⟨1, 0, 1⟩] : List FillOp) ++ ([⟨2, 0, 1⟩] : List FillOp)).foldl applyOp
        (Histogram.new "h" 4 (0, 4))).counts :=
  concurrent_fill_counts (Histogram.new "h" 4 (0, 4))
    ([⟨1, 0, 1⟩] : List FillOp) ([⟨2, 0, 1⟩] : List FillOp)
    ([⟨2, 0, 1⟩, ⟨1, 0, 1⟩] : List FillOp)
    (Interleaves.right (Interleaves.left Interleaves.nil))

theorem zip_map_sub_eq_zipWith (ys bgr : List ℚ) :
    ((ys.zip bgr).map (fun p => p.1 - p.2)) =
      List.zipWith (fun a b => a - b) ys bgr := by
  induction ys generalizing bgr with
  | nil => simp
  | cons y ys ih =>
    cases bgr with
    | nil => simp
    | cons b bgr => simp [ih]

theorem subtract_background_eq (f : Fitter) :
    f.subtract_background = correctedY f.x_data f.y_data f.background := by
  unfold Fitter.subtract_background correctedY
  cases f.background with
  | none => rfl
  | some bg =>
    cases hb : bg.get_background f.x_data with
    | none => simp [hb]
    | some bgr => simp [hb, zip_map_sub_eq_zipWith]

theorem fit_eq (f : Fitter) :
    f.fit = { f with
      background := updatedBackground f.background,
      result := some ((fitProducts f.x_data f.y_data
        (updatedBackground f.background) f.model).1),
      deconvoluted_lines := f.deconvoluted_lines ++
        (fitProducts f.x_data f.y_data
          (updatedBackground f.background) f.model).2 } := by
  obtain ⟨x, y, ye, bg, m, r, dl, cl⟩ := f
  cases bg with
  | none =>
    cases m <;>
      simp [Fitter.fit, fitProducts, updatedBackground, subtract_background_eq]
  | some b =>
    cases hr : b.result with
    | none =>
      cases m <;>
        simp [Fitter.fit, fitProducts, updatedBackground, hr,
          subtract_background_eq]
    | some p =>
      cases m <;>
        simp [Fitter.fit, fitProducts, updatedBackground, hr,
          subtract_background_eq]

/-- C2 (amended): re-invoking `fit()` replaces the stored `result`
wholesale — the new result is a function of the data, background and model
only, regardless of any previously stored result `r` — but the render-ready
`deconvoluted_lines` are *appended to*, not replaced: the lines of every
prior invocation are retained in front of the new fit's per-peak curves. -/
theorem fit_replaces_result_appends_lines (f : Fitter) (r : Option FitResult)
    (d : List EguiLine) :
    ({ f with result := r, deconvoluted_lines := d } : Fitter).fit
      = { f with
          background := updatedBackground f.background,
          result := some ((fitProducts f.x_data f.y_data
            (updatedBackground f.background) f.model).1),
          deconvoluted_lines := d ++
            (fitProducts f.x_data f.y_data
              (updatedBackground f.background) f.model).2 } := by
  rw [fit_eq]

/-- C2, counterexample: the claim says that after a second `fit()` call
`deconvoluted_lines` corresponds only to the new fit's components with
nothing retained from the prior invocation; but calling `fit()` twice on a
one-peak fitter leaves two decomposed curves, while the new fit has a
single component. -/
theorem fit_twice_counterexample :
    exampleFitter.fit.fit.deconvoluted_lines.length = 2
    ∧ (match exampleFitter.fit.fit.result with
        | some (FitResult.Gaussian g) => g.peak_markers.length
        | _ => 0) = 1 := by
  constructor <;> rfl

/-- C5: `fit()` fits the attached background exactly when it has no result
yet (an already-fit background is left untouched, an absent one stays
absent); the corrected y-data is the element-wise difference of `y_data`
and the evaluated background when available and raw `y_data` otherwise;
and the corrected data — computed against the updated background — is
dispatched to the Gaussian or Linear fitter according to the configured
`FitModel`. -/
theorem fit_orchestration (f : Fitter) :
    (∀ bg, f.background = some bg → bg.result = none →
        (f.fit).background = some bg.fit)
    ∧ (∀ bg p, f.background = some bg → bg.result = some p →
        (f.fit).background = some bg)
    ∧ (f.background = none → (f.fit).background = none)
    ∧ (∀ bg bgr, f.background = some bg →
        bg.get_background f.x_data = some bgr →
        f.subtract_background =
          List.zipWith (fun a b => a - b) f.y_data bgr)
    ∧ (∀ bg, f.background = some bg →
        bg.get_background f.x_data = none →
        f.subtract_background = f.y_data)
    ∧ (f.background = none → f.subtract_background = f.y_data)
    ∧ (∀ pm, f.model = FitModel.Gaussian pm →
        (f.fit).result = some (FitResult.Gaussian
          ((GaussianFitter.new f.x_data
            (correctedY f.x_data f.y_data
              (updatedBackground f.background)) pm).multi_gauss_fit)))
    ∧ (f.model = FitModel.Linear →
        (f.fit).result = some (FitResult.Linear
          ((LinearFitter.new f.x_data
            (correctedY f.x_data f.y_data
              (updatedBackground f.background))).perform_linear_fit))) := by
  refine ⟨?_, ?_, ?_, ?_, ?_, ?_, ?_, ?_⟩
  · intro bg hbg hr
    rw [fit_eq]; simp [updatedBackground, hbg, hr]
  · intro bg p hbg hr
    rw [fit_eq]; simp [updatedBackground, hbg, hr]
  · intro hbg
    rw [fit_eq]; simp [updatedBackground, hbg]
  · intro bg bgr hbg hg
    rw [subtract_background_eq]; simp [correctedY, hbg, hg]
  · intro bg hbg hg
    rw [subtract_background_eq]; simp [correctedY, hbg, hg]
  · intro hbg
    rw [subtract_background_eq]; simp [correctedY, hbg]
  · intro pm hm
    rw [fit_eq]; simp [fitProducts, hm]
  · intro hm
    rw [fit_eq]; simp [fitProducts, hm]

/-- C5, witness: on a fitter with an unfit background, `fit()` fits it; on
a fitter with an already-fit background, the background is untouched and
the corrected y-data is the element-wise difference against the evaluated
background; a background-free fitter dispatches raw y, here to the Linear
fitter. -/
theorem fit_orchestration_witness :
    (unfitBgFitter.fit).background =
      some (BackgroundFitter.fit ⟨[0, 1], [0, 1], none⟩)
    ∧ (fitBgFitter.fit).background = some ⟨[], [], some (0, 0)⟩
    ∧ fitBgFitter.subtract_background =
        List.zipWith (fun a b => a - b) [5] [0]
    ∧ (linearFitter0.fit).result = some (FitResult.Linear
        ((LinearFitter.new linearFitter0.x_data
          (correctedY linearFitter0.x_data linearFitter0.y_data
            (updatedBackground linearFitter0.background))).perform_linear_fit)
        ) :=
  ⟨(fit_orchestration unfitBgFitter).1 ⟨[0, 1], [0, 1], none⟩ rfl rfl,
   (fit_orchestration fitBgFitter).2.1 ⟨[], [], some (0, 0)⟩ (0, 0) rfl rfl,
   (fit_orchestration fitBgFitter).2.2.2.1 ⟨[], [], some (0, 0)⟩ [0] rfl
     (by norm_num [BackgroundFitter.get_background, fitBgFitter]),
   (fit_orchestration linearFitter0).2.2.2.2.2.2.2 rfl⟩

/-- C6: loading a snapshot appends its stored fits after the existing ones
— the resulting length is the sum of both and pre-existing entries are
preserved, in order, before the loaded ones — and overwrites both
in-progress slots with the snapshot's values. -/
theorem load_appends_and_overwrites (self loaded : Fits) :
    (self.loadMerge loaded).stored_fits.length =
      self.stored_fits.length + loaded.stored_fits.length
    ∧ (self.loadMerge loaded).stored_fits.take self.stored_fits.length =
        self.stored_fits
    ∧ (self.loadMerge loaded).stored_fits.drop self.stored_fits.length =
        loaded.stored_fits
    ∧ (self.loadMerge loaded).temp_fit = loaded.temp_fit
    ∧ (self.loadMerge loaded).temp_background_fit =
        loaded.temp_background_fit := by
  refine ⟨?_, ?_, ?_, rfl, rfl⟩ <;> simp [Fits.loadMerge]

/-- C7: `get_peak_markers` yields the initial peak-centre guesses when the
model is Gaussian and no fit has run (preview before any fit), the fit's
own peak markers once a Gaussian result exists, and the empty sequence for
a Linear model without a Gaussian result — in every case markers are
produced whether or not a fit has been performed. -/
theorem get_peak_markers_cases (f : Fitter) :
    (∀ pm, f.result = none → f.model = FitModel.Gaussian pm →
        f.get_peak_markers = pm)
    ∧ (∀ g, f.result = some (FitResult.Gaussian g) →
        f.get_peak_markers = g.peak_markers)
    ∧ (f.model = FitModel.Linear →
        (f.result = none ∨ ∃ lf, f.result = some (FitResult.Linear lf)) →
        f.get_peak_markers = []) := by
  refine ⟨?_, ?_, ?_⟩
  · intro pm hr hm
    simp [Fitter.get_peak_markers, hr, hm]
  · intro g hr
    simp [Fitter.get_peak_markers, hr]
  · intro hm hr
    rcases hr with hr | ⟨lf, hr⟩ <;> simp [Fitter.get_peak_markers, hr, hm]

/-- C7, witness: the preview fitter returns its initial guesses, the
finished fitter returns the fit's markers, the Linear fitter returns the
empty sequence. -/
theorem get_peak_markers_cases_witness :
    previewFitter.get_peak_markers = [5]
    ∧ doneFitter.get_peak_markers = [7]
    ∧ linearFitter0.get_peak_markers = [] :=
  ⟨(get_peak_markers_cases previewFitter).1 [5] rfl rfl,
   (get_peak_markers_cases doneFitter).2.1 ⟨[], [], [7], [], none⟩ rfl,
   (get_peak_markers_cases linearFitter0).2.2 rfl (Or.inl rfl)⟩

theorem find?_append_none {α : Type} (p : α → Bool) {l₁ : List α}
    (l₂ : List α) (h : l₁.find? p = none) :
    (l₁ ++ l₂).find? p = l₂.find? p := by
  induction l₁ with
  | nil => rfl
  | cons a l ih =>
    by_cases hpa : p a = true
    · rw [List.find?_cons_of_pos _ hpa] at h
      exact absurd h (by simp)
    · rw [List.cons_append, List.find?_cons_of_neg _ hpa]
      exact ih (by rwa [List.find?_cons_of_neg _ hpa] at h)

theorem get_or_create_other_valid (H : Histogrammer) :
    (((H.get_or_create_other_grid).2.grids.find?
      (fun t => t.gid = (H.get_or_create_other_grid).1)).isSome = true)
    ∧ (H.get_or_create_other_grid).2.grid_histogram_map =
        H.grid_histogram_map
    ∧ (H.get_or_create_other_grid).2.panes1d = H.panes1d
    ∧ (H.get_or_create_other_grid).2.panes2d = H.panes2d := by
  unfold Histogrammer.get_or_create_other_grid
  cases hf : H.grids.find? (fun g => g.tab = "Other") with
  | some g =>
    refine ⟨?_, rfl, rfl, rfl⟩
    have hg : g ∈ H.grids := List.mem_of_find?_eq_some hf
    rw [List.find?_isSome]
    exact ⟨g, hg, by simp⟩
  | none =>
    refine ⟨?_, rfl, rfl, rfl⟩
    rw [List.find?_isSome]
    exact ⟨⟨H.next_id, "Other"⟩, by simp [Histogrammer.create_grid],
      by simp [Histogrammer.create_grid]⟩

/-- C3: `add_hist1d` (resp. `add_hist2d`) with an already-registered name
of the same dimensionality resets that histogram's counts in place —
first match, no duplicate pane, geometry untouched no matter what bins and
range were supplied (the reset path never reads them); with a fresh name a
new zeroed histogram pane is appended and recorded under the supplied
grid (when valid) or under the "Other" fallback grid, which is created
lazily at most once — `get_or_create_other_grid` is idempotent — and
reused thereafter. -/
theorem add_hist_create_or_reset (H : Histogrammer) (name : String)
    (bins : ℕ) (range : ℚ × ℚ) (g? : Option ℕ) (g : ℕ) (bins2 : ℕ × ℕ)
    (range2 : (ℚ × ℚ) × (ℚ × ℚ)) :
    ((H.panes1d.find? (fun p => p.hist.name = name)).isSome = true →
        H.add_hist1d name bins range g? =
          { H with panes1d := resetFirst1d H.panes1d name })
    ∧ (∀ pre (p : Pane1D) post, (∀ q ∈ pre, q.hist.name ≠ name) →
        p.hist.name = name →
        resetFirst1d (pre ++ p :: post) name =
          pre ++ ({ p with hist := p.hist.reset } : Pane1D) :: post)
    ∧ (∀ h : Histogram, (h.reset).bin_count = h.bin_count
        ∧ (h.reset).range = h.range ∧ (h.reset).name = h.name
        ∧ (h.reset).counts = List.replicate h.bin_count 0)
    ∧ (H.panes1d.find? (fun p => p.hist.name = name) = none →
        (H.grids.find? (fun t => t.gid = g)).isSome = true →
        H.add_hist1d name bins range (some g) =
          { H with
              panes1d := H.panes1d ++
                [Pane1D.mk H.next_id (Histogram.new name bins range)],
              next_id := H.next_id + 1,
              grid_histogram_map := mapAdd H.grid_histogram_map g H.next_id })
    ∧ (H.panes1d.find? (fun p => p.hist.name = name) = none →
        H.add_hist1d name bins range none =
          { ((insertPane1d H name bins range).get_or_create_other_grid).2 with
              grid_histogram_map :=
                mapAdd ((insertPane1d H name bins
                  range).get_or_create_other_grid).2.grid_histogram_map
                  ((insertPane1d H name bins range).get_or_create_other_grid).1
                  H.next_id })
    ∧ (∀ H' : Histogrammer,
        ((H'.get_or_create_other_grid).2).get_or_create_other_grid =
          H'.get_or_create_other_grid)
    ∧ (H.grids.find? (fun t => t.tab = "Other") = none →
        H.get_or_create_other_grid =
          (H.next_id, { H with grids := H.grids ++ [⟨H.next_id, "Other"⟩],
                               next_id := H.next_id + 1 }))
    ∧ ((H.panes2d.find? (fun p => p.hist.name = name)).isSome = true →
        H.add_hist2d name bins2 range2 g? =
          { H with panes2d := resetFirst2d H.panes2d name })
    ∧ (H.panes2d.find? (fun p => p.hist.name = name) = none →
        (H.grids.find? (fun t => t.gid = g)).isSome = true →
        H.add_hist2d name bins2 range2 (some g) =
          { H with
              panes2d := H.panes2d ++
                [Pane2D.mk H.next_id (Histogram2D.new name bins2 range2)],
              next_id := H.next_id + 1,
              grid_histogram_map := mapAdd H.grid_histogram_map g H.next_id }) := by
  refine ⟨?_, ?_, ?_, ?_, ?_, ?_, ?_, ?_, ?_⟩
  · intro hfound
    unfold Histogrammer.add_hist1d
    rw [if_pos hfound]
  · intro pre p post hpre hp
    induction pre with
    | nil => simp [resetFirst1d, hp]
    | cons q rest ih =>
      have hq : ¬ (q.hist.name = name) := hpre q (by simp)
      have hstep : resetFirst1d (q :: (rest ++ p :: post)) name
          = q :: resetFirst1d (rest ++ p :: post) name := by
        simp [resetFirst1d, hq]
      rw [List.cons_append, hstep, ih (fun r hr => hpre r (by simp [hr])),
        List.cons_append]
  · intro h
    exact ⟨rfl, rfl, rfl, rfl⟩
  · intro hmiss hvalid
    unfold Histogrammer.add_hist1d
    rw [if_neg (by simp [hmiss])]
    unfold resolveGrid placePane insertPane1d
    rw [if_pos hvalid]
  · intro hmiss
    unfold Histogrammer.add_hist1d
    rw [if_neg (by simp [hmiss])]
    unfold resolveGrid placePane
    rw [if_pos (get_or_create_other_valid _).1]
  · intro H'
    unfold Histogrammer.get_or_create_other_grid
    cases hf : H'.grids.find? (fun g => g.tab = "Other") with
    | some g0 => simp [hf]
    | none =>
      simp only [Histogrammer.create_grid]
      rw [find?_append_none _ _ hf]
      simp [Histogrammer.create_grid]
  · intro hnone
    unfold Histogrammer.get_or_create_other_grid
    rw [hnone]
    rfl
  · intro hfound
    unfold Histogrammer.add_hist2d
    rw [if_pos hfound]
  · intro hmiss hvalid
    unfold Histogrammer.add_hist2d
    rw [if_neg (by simp [hmiss])]
    unfold resolveGrid placePane insertPane2d
    rw [if_pos hvalid]

/-- C4: `fill_hist1d` / `fill_hist2d` with an unregistered name reports
failure — `false` returned (and an error logged), the registry left
exactly as it was, no fill task spawned; with a registered name the fill
is dispatched as an asynchronous job and `true` is returned immediately —
at dispatch time no histogram contents change (the 2D path only records
the cut columns on the found pane), the caller never waits for the fill. -/
theorem fill_dispatch (H : Histogrammer) (name col cx cy : String) :
    (H.panes1d.find? (fun p => p.hist.name = name) = none →
        H.fill_hist1d name col = (false, H))
    ∧ ((H.panes1d.find? (fun p => p.hist.name = name)).isSome = true →
        H.fill_hist1d name col =
          (true, { H with handles := H.handles ++ [FillJob.mk name [col]] }))
    ∧ (H.panes2d.find? (fun p => p.hist.name = name) = none →
        H.fill_hist2d name cx cy = (false, H))
    ∧ ((H.panes2d.find? (fun p => p.hist.name = name)).isSome = true →
        H.fill_hist2d name cx cy =
          (true, { H with
              panes2d := setCutsFirst2d H.panes2d name cx cy,
              handles := H.handles ++ [FillJob.mk name [cx, cy]] })) := by
  refine ⟨?_, ?_, ?_, ?_⟩
  · intro h
    unfold Histogrammer.fill_hist1d
    rw [h]
  · intro h
    obtain ⟨p, hp⟩ := Option.isSome_iff_exists.mp h
    unfold Histogrammer.fill_hist1d
    rw [hp]
  · intro h
    unfold Histogrammer.fill_hist2d
    rw [h]
  · intro h
    obtain ⟨p, hp⟩ := Option.isSome_iff_exists.mp h
    unfold Histogrammer.fill_hist2d
    rw [hp]

/-- C4, witness: on the sample registry, filling "e1" dispatches a job and
returns `true`; filling the unknown name "nope" returns `false` with the
registry unchanged; likewise in 2D. -/
theorem fill_dispatch_witness :
    sampleRegistry.fill_hist1d "e1" "c" =
      (true, { sampleRegistry with
          handles := sampleRegistry.handles ++ [FillJob.mk "e1" ["c"]] })
    ∧ sampleRegistry.fill_hist1d "nope" "c" = (false, sampleRegistry)
    ∧ sampleRegistry.fill_hist2d "e2" "cx" "cy" =
      (true, { sampleRegistry with
          panes2d := setCutsFirst2d sampleRegistry.panes2d "e2" "cx" "cy",
          handles := sampleRegistry.handles ++ [FillJob.mk "e2" ["cx", "cy"]] })
    ∧ sampleRegistry.fill_hist2d "nope" "cx" "cy" = (false, sampleRegistry) :=
  ⟨(fill_dispatch sampleRegistry "e1" "c" "cx" "cy").2.1 rfl,
   (fill_dispatch sampleRegistry "nope" "c" "cx" "cy").1 rfl,
   (fill_dispatch sampleRegistry "e2" "c" "cx" "cy").2.2.2 rfl,
   (fill_dispatch sampleRegistry "nope" "c" "cx" "cy").2.2.1 rfl⟩

/-- C3, witness: adding "e1" again (with different bins and range) resets
it in place; adding the fresh "n1" into the valid grid 2 appends one
zeroed pane and records it; the reset is in place at a concrete
decomposition; adding "e2" again in 2D resets in place. -/
theorem add_hist_create_or_reset_witness :
    (sampleRegistry.add_hist1d "e1" 9 (5, 6) none =
      { sampleRegistry with
          panes1d := resetFirst1d sampleRegistry.panes1d "e1" })
    ∧ (sampleRegistry.add_hist1d "n1" 8 (0, 8) (some 2) =
      { sampleRegistry with
          panes1d := sampleRegistry.panes1d ++
            [Pane1D.mk sampleRegistry.next_id (Histogram.new "n1" 8 (0, 8))],
          next_id := sampleRegistry.next_id + 1,
          grid_histogram_map :=
            mapAdd sampleRegistry.grid_histogram_map 2 sampleRegistry.next_id })
    ∧ (resetFirst1d ([] ++ Pane1D.mk 0 (Histogram.new "e1" 4 (0, 4)) :: []) "e1"
        = [] ++ ({ Pane1D.mk 0 (Histogram.new "e1" 4 (0, 4)) with
            hist := (Histogram.new "e1" 4 (0, 4)).reset } : Pane1D) :: [])
    ∧ (sampleRegistry.add_hist2d "e2" (3, 3) ((0, 2), (0, 2)) none =
      { sampleRegistry with
          panes2d := resetFirst2d sampleRegistry.panes2d "e2" }) :=
  ⟨(add_hist_create_or_reset sampleRegistry "e1" 9 (5, 6) none 2 (3, 3)
      ((0, 2), (0, 2))).1 rfl,
   (add_hist_create_or_reset sampleRegistry "n1" 8 (0, 8) none 2 (3, 3)
      ((0, 2), (0, 2))).2.2.2.1 rfl rfl,
   (add_hist_create_or_reset sampleRegistry "e1" 9 (5, 6) none 2 (3, 3)
      ((0, 2), (0, 2))).2.1 [] (Pane1D.mk 0 (Histogram.new "e1" 4 (0, 4))) []
      (by simp) rfl,
   (add_hist_create_or_reset sampleRegistry "e2" 9 (5, 6) none 2 (3, 3)
      ((0, 2), (0, 2))).2.2.2.2.2.2.2.1 rfl⟩

theorem swapRemove_cons_succ {α : Type} (a b : α) (t : List α) (i : ℕ) :
    swapRemove (a :: b :: t) (i + 1) = a :: swapRemove (b :: t) i := by
  unfold swapRemove
  rw [List.getLast?_cons_cons]
  cases hl : (b :: t).getLast? with
  | none => simp at hl
  | some x =>
    have hne : (b :: t).set i x ≠ [] := by
      have hlen : ((b :: t).set i x).length = t.length + 1 := by simp
      intro hcon
      rw [hcon] at hlen
      simp at hlen
    show ((a :: b :: t).set (i + 1) x).dropLast
        = a :: ((b :: t).set i x).dropLast
    rw [List.set_cons_succ, List.dropLast_cons_of_ne_nil hne]

theorem swapRemove_length {α : Type} (l : List α) (i : ℕ) (h : i < l.length) :
    (swapRemove l i).length = l.length - 1 := by
  cases l with
  | nil => simp at h
  | cons a t =>
    unfold swapRemove
    cases hl : (a :: t).getLast? with
    | none => simp at hl
    | some x => simp

theorem swapRemove_getD_lt {α : Type} [Inhabited α] :
    ∀ (l : List α) (i j : ℕ), j < i → i < l.length →
      (swapRemove l i).getD j default = l.getD j default := by
  intro l
  induction l with
  | nil =>
    intro i j _ hi
    simp at hi
  | cons a t ih =>
    intro i j hj hi
    cases i with
    | zero => exact absurd hj (Nat.not_lt_zero j)
    | succ i =>
      cases t with
      | nil =>
        simp only [List.length_cons, List.length_nil] at hi
        omega
      | cons b t' =>
        rw [swapRemove_cons_succ]
        cases j with
        | zero => rfl
        | succ j =>
          rw [List.getD_cons_succ, List.getD_cons_succ]
          exact ih i j (Nat.lt_of_succ_lt_succ hj)
            (Nat.lt_of_succ_lt_succ hi)

theorem swapRemove_perm {α : Type} [Inhabited α] :
    ∀ (l : List α) (i : ℕ), i < l.length →
      l.Perm (l.getD i default :: swapRemove l i) := by
  intro l
  induction l with
  | nil =>
    intro i hi
    simp at hi
  | cons a t ih =>
    intro i hi
    cases i with
    | zero =>
      cases t with
      | nil => exact List.Perm.refl _
      | cons b t' =>
        cases hx : (b :: t').getLast? with
        | none => simp at hx
        | some x =>
          have hx' : swapRemove (a :: b :: t') 0 = x :: (b :: t').dropLast := by
            unfold swapRemove
            rw [List.getLast?_cons_cons, hx]
            show ((a :: b :: t').set 0 x).dropLast = x :: (b :: t').dropLast
            rw [List.set_cons_zero,
              List.dropLast_cons_of_ne_nil (List.cons_ne_nil b t')]
          rw [hx', List.getD_cons_zero]
          refine List.Perm.cons a ?_
          have hsplit : (b :: t').dropLast ++ [x] = b :: t' :=
            List.dropLast_append_getLast? x (by rw [hx]; rfl)
          have hp := List.perm_append_singleton x (b :: t').dropLast
          rw [hsplit] at hp
          exact hp
    | succ i =>
      cases t with
      | nil =>
        simp only [List.length_cons, List.length_nil] at hi
        omega
      | cons b t' =>
        rw [swapRemove_cons_succ, List.getD_cons_succ]
        have ih' := ih i (Nat.lt_of_succ_lt_succ hi)
        exact (ih'.cons a).trans (List.Perm.swap _ _ _)

theorem joinFold_spec {α : Type} [Inhabited α] :
    ∀ (ds : List ℕ) (c acc : List α),
      ds.Pairwise (fun i j => j < i) →
      (∀ i ∈ ds, i < c.length) →
      (ds.foldl joinStep (c, acc)).2
          = acc ++ ds.map (fun i => c.getD i default)
      ∧ ((ds.foldl joinStep (c, acc)).1 : Multiset α)
          + (↑(ds.map (fun i => c.getD i default)) : Multiset α)
          = (c : Multiset α) := by
  intro ds
  induction ds with
  | nil =>
    intro c acc _ _
    constructor <;> simp
  | cons i ds' ih =>
    intro c acc hpw hbound
    have hi : i < c.length := hbound i (by simp)
    have hlt : ∀ j ∈ ds', j < i := (List.pairwise_cons.mp hpw).1
    have hpw' : ds'.Pairwise (fun i j => j < i) := (List.pairwise_cons.mp hpw).2
    have hbound' : ∀ j ∈ ds', j < (swapRemove c i).length := by
      intro j hj
      rw [swapRemove_length c i hi]
      have := hlt j hj
      omega
    have hmap : ds'.map (fun j => (swapRemove c i).getD j default)
        = ds'.map (fun j => c.getD j default) :=
      List.map_congr_left
        (fun j hj => swapRemove_getD_lt c i j (hlt j hj) hi)
    obtain ⟨h2, h1⟩ :=
      ih (swapRemove c i) (acc ++ [c.getD i default]) hpw' hbound'
    rw [hmap] at h2 h1
    constructor
    · simp only [List.foldl_cons, joinStep]
      rw [h2, List.map_cons, List.append_assoc, List.singleton_append]
    · simp only [List.foldl_cons, joinStep]
      rw [List.map_cons, ← Multiset.cons_coe, Multiset.add_cons, h1,
        Multiset.cons_coe, Multiset.coe_eq_coe]
      exact (swapRemove_perm c i hi).symm

theorem map_getD_range_filter {α : Type} [Inhabited α] (p : α → Bool) :
    ∀ (l : List α),
      ((List.range l.length).filter (fun i => p (l.getD i default))).map
        (fun i => l.getD i default) = l.filter p := by
  intro l
  induction l with
  | nil => rfl
  | cons a t ih =>
    have hshift : List.range (a :: t).length
        = 0 :: (List.range t.length).map Nat.succ := by
      rw [List.length_cons, List.range_succ_eq_map]
    have hfm : ((List.range t.length).map Nat.succ).filter
          (fun i => p ((a :: t).getD i default))
        = ((List.range t.length).filter
            (fun i => p (t.getD i default))).map Nat.succ := by
      rw [List.filter_map]
      rfl
    have hmm2 : ∀ s : List ℕ,
        (s.map Nat.succ).map (fun i => (a :: t).getD i default)
          = s.map (fun i => t.getD i default) := by
      intro s
      rw [List.map_map]
      rfl
    rw [hshift, List.filter_cons]
    by_cases hpa : p a = true
    · rw [if_pos (by simpa using hpa), List.map_cons, hfm, hmm2, ih,
        List.getD_cons_zero, List.filter_cons_of_pos hpa]
    · rw [if_neg (by simpa using hpa), hfm, hmm2, ih,
        List.filter_cons_of_neg (by simpa using hpa)]

/-- C8: on any handle list, `check_and_join_finished_threads` joins
exactly the currently finished handles, each exactly once — the joined
(outcome-surfaced) sequence is precisely the finished handles, in reverse
scan order — and the remaining handle list is a permutation of the
unfinished handles, left to be joined by a later poll.  The function is
total: a panicked handle is joined and surfaced like any other, never
crashing the scheduler. -/
theorem join_finished_exactly (hs : List ThreadHandle) :
    (checkAndJoinFinished hs).2 =
      (hs.filter (fun t => t.is_finished)).reverse
    ∧ (checkAndJoinFinished hs).1.Perm
        (hs.filter (fun t => !t.is_finished)) := by
  unfold checkAndJoinFinished
  by_cases hemp : hs.isEmpty = true
  · have hnil : hs = [] := List.isEmpty_iff.mp hemp
    subst hnil
    simp
  · rw [if_neg hemp]
    have hpw : (finishedIdx hs).reverse.Pairwise (fun i j => j < i) := by
      rw [List.pairwise_reverse]
      exact (List.pairwise_lt_range hs.length).filter _
    have hbound : ∀ i ∈ (finishedIdx hs).reverse, i < hs.length := by
      intro i hi
      rw [List.mem_reverse] at hi
      have := List.mem_filter.mp hi
      exact List.mem_range.mp this.1
    obtain ⟨h2, h1⟩ := joinFold_spec (finishedIdx hs).reverse hs [] hpw hbound
    have hmapfin :
        (finishedIdx hs).map (fun i => hs.getD i default)
          = hs.filter (fun t => t.is_finished) := by
      unfold finishedIdx
      exact map_getD_range_filter (fun t => t.is_finished) hs
    constructor
    · rw [h2, List.nil_append, List.map_reverse, hmapfin]
    · rw [List.map_reverse, Multiset.coe_reverse, hmapfin] at h1
      have hsplit :
          (↑(hs.filter (fun t => t.is_finished)) : Multiset ThreadHandle)
            + ↑(hs.filter (fun t => !t.is_finished)) = ↑hs := by
        rw [Multiset.coe_add, Multiset.coe_eq_coe]
        exact List.filter_append_perm _ hs
      have h1' :
          (↑(hs.filter (fun t => t.is_finished)) : Multiset ThreadHandle)
              + ↑((finishedIdx hs).reverse.foldl joinStep (hs, [])).1
            = ↑(hs.filter (fun t => t.is_finished))
              + ↑(hs.filter (fun t => !t.is_finished)) := by
        calc (↑(hs.filter (fun t => t.is_finished)) : Multiset ThreadHandle)
              + ↑((finishedIdx hs).reverse.foldl joinStep (hs, [])).1
            = ↑((finishedIdx hs).reverse.foldl joinStep (hs, [])).1
              + ↑(hs.filter (fun t => t.is_finished)) := add_comm _ _
          _ = (↑hs : Multiset ThreadHandle) := h1
          _ = ↑(hs.filter (fun t => t.is_finished))
              + ↑(hs.filter (fun t => !t.is_finished)) := hsplit.symm
      exact Multiset.coe_eq_coe.mp (add_left_cancel h1')

end GNat
